import Mathlib

/-!
Shallow embedding of the ParseMermaidAlpha core pipeline:
`parse_mermaid.py` (line-oriented Mermaid flowchart parser producing a Graph IR)
and `graph_to_ivr.py` (Graph IR to IVR script-node transformer).

Strings are modelled as Lean `String` (a wrapper around `List Char`); all
character-level operations (lower-casing, stripping, splitting, substring
search) are written out over `List Char` so every definition reduces in the
kernel.  Python dicts are modelled as insertion-ordered association lists with
an insert operation that overwrites in place, matching CPython dict semantics.
-/

namespace PM

/-! ## Character and string utilities (Python semantics) -/

/-- Python `\s` on ASCII input: space, tab, newline, carriage return,
vertical tab, form feed. -/
def isPySpace (c : Char) : Bool :=
  c == ' ' || c == '\t' || c == '\n' || c == '\r' ||
  c == Char.ofNat 11 || c == Char.ofNat 12

/-- Python regex `\w` on ASCII input: letters, digits, underscore. -/
def isWordChar (c : Char) : Bool :=
  c.isAlphanum || c == '_'

/-- Python `str.lower()` (ASCII). -/
def lowerStr (s : String) : String :=
  String.mk (s.toList.map Char.toLower)

/-- List version of leading-match: `leadMatch p l` is true iff `p` is an
initial segment of `l`. -/
def leadMatch : List Char → List Char → Bool
  | [], _ => true
  | _ :: _, [] => false
  | a :: as, b :: bs => a == b && leadMatch as bs

/-- Python substring test `sub in s` on character lists. -/
def hasInfix (sub : List Char) : List Char → Bool
  | [] => sub.isEmpty
  | c :: rest => leadMatch sub (c :: rest) || hasInfix sub rest

/-- Python `str.strip()`: drop whitespace from both ends. -/
def pyStrip (s : String) : String :=
  String.mk (((s.toList.dropWhile isPySpace).reverse.dropWhile isPySpace).reverse)

/-- Accumulator version of whitespace splitting: `cur` holds the current
word reversed; words are emitted at whitespace boundaries and at the end. -/
def splitWordsAux (cur : List Char) : List Char → List (List Char)
  | [] => if cur.isEmpty then [] else [cur.reverse]
  | c :: rest =>
    if isPySpace c then
      if cur.isEmpty then splitWordsAux [] rest
      else cur.reverse :: splitWordsAux [] rest
    else splitWordsAux (c :: cur) rest

/-- Split a character list into maximal runs of non-whitespace characters,
dropping all whitespace: Python `str.split()` with no argument. -/
def splitWords (l : List Char) : List (List Char) :=
  splitWordsAux [] l

/-- Python `str.capitalize()`: first character upper-cased, the rest
lower-cased. -/
def pyCapitalize : List Char → List Char
  | [] => []
  | c :: rest => c.toUpper :: rest.map Char.toLower

/-- Join character-list words with a separator: Python `sep.join(words)`. -/
def joinSep (sep : List Char) : List (List Char) → List Char
  | [] => []
  | [w] => w
  | w :: ws => w ++ sep ++ joinSep sep ws

/-- `IVRTransformer._to_title_case`: replace underscores by spaces, split on
whitespace, capitalize each word, join with single spaces. -/
def toTitleCase (s : String) : String :=
  String.mk (joinSep [' ']
    ((splitWords (s.toList.map (fun c => if c == '_' then ' ' else c))).map pyCapitalize))

/-! ## Insertion-ordered dictionaries (CPython dict semantics) -/

/-- CPython `d[k] = v`: if the key is present, overwrite the value in place
(keeping the original position); otherwise append a new entry. -/
def dictInsert {β : Type} (m : List (String × β)) (k : String) (v : β) :
    List (String × β) :=
  if m.any (fun p => p.1 == k) then
    m.map (fun p => if p.1 == k then (k, v) else p)
  else m ++ [(k, v)]

/-- Lookup of a key in an association list (first match wins). -/
def dictLookup {β : Type} : List (String × β) → String → Option β
  | [], _ => none
  | (k, v) :: rest, key => if k == key then some v else dictLookup rest key

/-! ## Graph IR data model (`parse_mermaid.py`) -/

/-- `NodeType` enumeration of supported Mermaid shapes. -/
inductive NodeType where
  | normal | round | stadium | subroutine | cylindrical
  | circle | asymmetric | rhombus | hexagon
deriving DecidableEq

/-- `Node` dataclass. -/
structure Node where
  id : String
  raw_text : String
  node_type : NodeType
  style_classes : List String
  subgraph : Option String := none
deriving DecidableEq

/-- `Edge` dataclass. -/
structure Edge where
  from_id : String
  to_id : String
  label : Option String := none
  style : Option String := none
deriving DecidableEq

/-- `Subgraph` dataclass. -/
structure Subgraph where
  id : String
  title : String
  parent : Option String := none
  style_classes : List String := []
deriving DecidableEq

/-- The dictionary returned by `MermaidParser.parse`: nodes keyed by id
(insertion-ordered), the edge list, subgraphs, and classDef styles. -/
structure Graph where
  nodes : List (String × Node)
  edges : List Edge
  subgraphs : List (String × Subgraph)
  styles : List (String × String)
deriving DecidableEq

/-! ## IVR script-node data model (`graph_to_ivr.py` output dictionaries) -/

/-- The two shapes of value stored under the `gosub` key:
`["SaveCallResult", code, name]` or the bare string `"XferCall"`. -/
inductive GosubVal where
  | call (name : String) (code : Nat) (resultName : String)
  | sub (name : String)
deriving DecidableEq

/-- The `getDigits` sub-dictionary of a decision node. -/
structure GetDigits where
  numDigits : Nat
  maxTries : Nat
  maxTime : Nat
  validChoices : String
  errorPrompt : String
  nonePrompt : String
deriving DecidableEq

/-- An IVR script node: the `label`/`log` base plus the optional directive
keys the transformer may attach.  The Python `include` key is rendered as
`includeRef` (`include` is reserved in Lean). -/
structure IVRNode where
  label : String
  log : Option String := none
  maxLoop : Option (String × Nat × String) := none
  nobarge : Option String := none
  gosub : Option GosubVal := none
  goto : Option String := none
  playPrompt : Option (List String) := none
  getDigits : Option GetDigits := none
  branch : Option (List (String × String)) := none
  setvar : Option (String × String) := none
  includeRef : Option String := none
deriving DecidableEq

/-! ## Transformer constants (`IVRTransformer.__init__` and module table) -/

/-- `AUDIO_PROMPTS` module-level mapping, in definition order. -/
def AUDIO_PROMPTS : List (String × String) :=
  [("Invalid entry. Please try again", "callflow:1009"),
   ("Goodbye message", "callflow:1029"),
   ("Please enter your PIN", "callflow:1008"),
   ("An accepted response has been recorded", "callflow:1167"),
   ("Your response is being recorded as a decline", "callflow:1021"),
   ("Please contact your local control center", "callflow:1705"),
   ("To speak to a dispatcher", "callflow:1645"),
   ("We were not able to complete the transfer", "callflow:1353")]

/-- `self.standard_nodes["start"]`. -/
def startNode : IVRNode :=
  { label := "Start"
    maxLoop := some ("Main", 3, "Problems")
    nobarge := some "1"
    log := some "Entry point to call flow" }

/-- `self.standard_nodes["problems"]`. -/
def problemsNode : IVRNode :=
  { label := "Problems"
    gosub := some (.call "SaveCallResult" 1198 "Error Out")
    goto := some "Goodbye" }

/-- `self.standard_nodes["goodbye"]`. -/
def goodbyeNode : IVRNode :=
  { label := "Goodbye"
    log := some "Goodbye message"
    playPrompt := some ["callflow:1029"]
    nobarge := some "1"
    goto := some "hangup" }

/-- `self.result_codes`, in definition order. -/
def resultCodes : List (String × Nat × String) :=
  [("accept", 1001, "Accept"),
   ("decline", 1002, "Decline"),
   ("not_home", 1006, "Not Home"),
   ("qualified_no", 1145, "QualNo"),
   ("error", 1198, "Error Out")]

/-! ## Transformer (`graph_to_ivr.py`) -/

/-- Exact-match half of `_find_audio_prompt`: `text in AUDIO_PROMPTS`. -/
def findExactPrompt : List (String × String) → String → Option String
  | [], _ => none
  | (k, v) :: rest, text => if k == text then some v else findExactPrompt rest text

/-- Substring half of `_find_audio_prompt`: first entry (in table order)
whose lower-cased key occurs in the lower-cased text. -/
def findSubPrompt : List (String × String) → String → Option String
  | [], _ => none
  | (k, v) :: rest, textLower =>
    if hasInfix (lowerStr k).toList textLower.toList then some v
    else findSubPrompt rest textLower

/-- `IVRTransformer._find_audio_prompt`. -/
def find_audio_prompt (text : String) : Option String :=
  match findExactPrompt AUDIO_PROMPTS text with
  | some p => some p
  | none => findSubPrompt AUDIO_PROMPTS (lowerStr text)

/-- The regex `re.match(r'^(\d+)\s*-\s*(.*)', label)` of
`_handle_decision_node`, returning the digit group on success.  The digits
are maximal-munched, optional whitespace follows, then a literal hyphen;
the trailing `(.*)` group always matches and is unused by the source. -/
def digitLabelMatch (label : String) : Option String :=
  let ds := label.toList.takeWhile Char.isDigit
  if ds.isEmpty then none
  else
    match (label.toList.dropWhile Char.isDigit).dropWhile isPySpace with
    | '-' :: _ => some (String.mk ds)
    | _ => none

/-- The regex `re.search(r'invalid|no input', label, re.IGNORECASE)`:
the lower-cased label contains `invalid` or `no input`. -/
def isInvalidLabel (label : String) : Bool :=
  hasInfix "invalid".toList (lowerStr label).toList ||
  hasInfix "no input".toList (lowerStr label).toList

/-- One step of the edge loop in `_handle_decision_node`, threading the
branch map and the `digit_choices` list.  A `None` or empty label is falsy
in Python and contributes nothing. -/
def decisionStep (acc : List (String × String) × List String) (e : Edge) :
    List (String × String) × List String :=
  match e.label with
  | none => acc
  | some lab =>
    if lab == "" then acc
    else
      match digitLabelMatch lab with
      | some d => (dictInsert acc.1 d (toTitleCase e.to_id), acc.2 ++ [d])
      | none =>
        if isInvalidLabel lab then
          (dictInsert (dictInsert acc.1 "error" (toTitleCase e.to_id))
            "none" (toTitleCase e.to_id), acc.2)
        else (dictInsert acc.1 lab (toTitleCase e.to_id), acc.2)

/-- `IVRTransformer._handle_decision_node`: returns the `getDigits`
dictionary and the branch map attached to the node. -/
def handle_decision_node (node : Node) (edges : List Edge) :
    GetDigits × List (String × String) :=
  let out_edges := edges.filter (fun e => e.from_id == node.id)
  let bd := out_edges.foldl decisionStep ([], [])
  ({ numDigits := 1, maxTries := 3, maxTime := 7
     validChoices := if bd.2.isEmpty then "" else String.mk (joinSep ['|'] (bd.2.map String.toList))
     errorPrompt := "callflow:1009"
     nonePrompt := "callflow:1009" }, bd.1)

/-- `IVRTransformer._handle_action_node`: returns the `playPrompt` list and
the optional `goto` target (attached only when there is exactly one outgoing
edge). -/
def handle_action_node (node : Node) (edges : List Edge) :
    List String × Option String :=
  let out_edges := edges.filter (fun e => e.from_id == node.id)
  let pp := match find_audio_prompt node.raw_text with
    | some p => [p]
    | none => ["tts:" ++ node.raw_text]
  let gt := match out_edges with
    | [e] => some (toTitleCase e.to_id)
    | _ => none
  (pp, gt)

/-- First loop of `_add_special_commands`: the first result-code key that is
a substring of the lower-cased text (table order), if any. -/
def findResultCode : List (String × Nat × String) → String → Option (Nat × String)
  | [], _ => none
  | (k, c, n) :: rest, textLower =>
    if hasInfix k.toList textLower.toList then some (c, n)
    else findResultCode rest textLower

/-- `IVRTransformer._add_special_commands`: result-code `gosub`, the
`nobarge` keyword list, then the transfer block (which overwrites `gosub`). -/
def add_special_commands (ivr : IVRNode) (raw_text : String) : IVRNode :=
  let tl := lowerStr raw_text
  let ivr1 := match findResultCode resultCodes tl with
    | some (c, n) => { ivr with gosub := some (.call "SaveCallResult" c n) }
    | none => ivr
  let ivr2 :=
    if ["goodbye", "recorded", "message", "please"].any
        (fun k => hasInfix k.toList tl.toList) then
      { ivr1 with nobarge := some "1" }
    else ivr1
  if hasInfix "transfer".toList tl.toList then
    { ivr2 with setvar := some ("transfer_ringback", "callflow:2223")
                includeRef := some "../../util/xfer.js"
                gosub := some (.sub "XferCall") }
  else ivr2

/-- `IVRTransformer._transform_node`.  The style-application loop is a
deliberate no-op in the source (`_apply_style` has empty branches), so the
`styles` argument does not influence the result; the Python `Optional`
return is always a truthy dictionary, so the embedding is total. -/
def transform_node (node : Node) (edges : List Edge)
    (_styles : List (String × String)) : IVRNode :=
  let base : IVRNode := { label := toTitleCase node.id, log := some node.raw_text }
  let mid := match node.node_type with
    | .rhombus =>
      let gb := handle_decision_node node edges
      { base with getDigits := some gb.1, branch := some gb.2 }
    | _ =>
      let pg := handle_action_node node edges
      { base with playPrompt := some pg.1, goto := pg.2 }
  add_special_commands mid node.raw_text

/-- The start-node guard in `transform`:
`any(n.raw_text.lower().startswith('start') for n in nodes_dict.values())`. -/
def hasStartText (g : Graph) : Bool :=
  g.nodes.any (fun p => leadMatch "start".toList (lowerStr p.2.raw_text).toList)

/-- The per-node loop of `transform` plus the conditionally prepended start
node: everything before the standard-node appends. -/
def baseNodes (g : Graph) : List IVRNode :=
  (if hasStartText g then [] else [startNode]) ++
  g.nodes.map (fun p => transform_node p.2 g.edges g.styles)

/-- Membership test `any(n["label"] == s for n in l)`. -/
def hasLabel (l : List IVRNode) (s : String) : Bool :=
  l.any (fun n => n.label == s)

/-- Append of the standard `problems` node when no node carries its label. -/
def appendProblems (l : List IVRNode) : List IVRNode :=
  if hasLabel l "Problems" then l else l ++ [problemsNode]

/-- Append of the standard `goodbye` node when no node carries its label. -/
def appendGoodbye (l : List IVRNode) : List IVRNode :=
  if hasLabel l "Goodbye" then l else l ++ [goodbyeNode]

/-- `IVRTransformer.transform`. -/
def transform (g : Graph) : List IVRNode :=
  appendGoodbye (appendProblems (baseNodes g))

/-- `graph_to_ivr`: constructs a fresh transformer (whose state is fixed at
construction and never written afterwards) and runs `transform`. -/
def graph_to_ivr (g : Graph) : List IVRNode :=
  transform g

/-- Two successive invocations of `graph_to_ivr` on the same input, as in
the idempotence property of the spec. -/
def runTwice (g : Graph) : List IVRNode × List IVRNode :=
  (graph_to_ivr g, graph_to_ivr g)

/-! ## Parser (`parse_mermaid.py`)

Each compiled regex of `MermaidParser` is embedded as a deterministic
recursive-descent matcher over `List Char`.  All the patterns are anchored
at the line start (`re.match`); greedy classes (`\w+`, `\s*`, `[^"]+`,
`[^|]+`, `[^\]]+`, `\d+`) are always followed by a character they cannot
consume, so maximal munch reproduces the regex engine's behaviour exactly;
the few optional groups whose failure forces overall failure are noted in
place. -/

/-- Consume a required literal at the head of the input. -/
def eatLit (pat : List Char) (l : List Char) : Option (List Char) :=
  if leadMatch pat l then some (l.drop pat.length) else none

/-- Consume `\w+` (at least one word character, maximal munch). -/
def eatWord (l : List Char) : Option (List Char × List Char) :=
  let w := l.takeWhile isWordChar
  if w.isEmpty then none else some (w, l.dropWhile isWordChar)

/-- Consume `\s*`. -/
def eatSpaces (l : List Char) : List Char := l.dropWhile isPySpace

/-- Consume `\s+` (at least one whitespace character). -/
def eatSpacesPlus (l : List Char) : Option (List Char) :=
  if (l.takeWhile isPySpace).isEmpty then none else some (l.dropWhile isPySpace)

/-- Consume `OPEN "content" CLOSE` where `openD` ends with the opening quote,
`closeD` starts with the closing quote, and the content is `[^"]+`. -/
def eatQuoted (openD closeD : List Char) (l : List Char) :
    Option (List Char) :=
  match eatLit openD l with
  | none => none
  | some r =>
    let content := r.takeWhile (fun c => !(c == '"'))
    if content.isEmpty then none
    else
      match eatLit closeD (r.drop content.length) with
      | none => none
      | some _ => some content

/-- The nine shape patterns of `self.node_patterns`, in dict insertion order,
as (shape, open delimiter, close delimiter) with the quotes included. -/
def nodePatternList : List (NodeType × List Char × List Char) :=
  [(.normal, ['[', '"'], ['"', ']']),
   (.round, ['(', '"'], ['"', ')']),
   (.stadium, ['(', '[', '"'], ['"', ']', ')']),
   (.subroutine, ['[', '[', '"'], ['"', ']', ']']),
   (.cylindrical, ['[', '(', '"'], ['"', ')', ']']),
   (.circle, ['(', '(', '"'], ['"', ')', ')']),
   (.asymmetric, ['>', '"'], ['"', ']']),
   (.rhombus, [Char.ofNat 123, '"'], ['"', Char.ofNat 125]),
   (.hexagon, [Char.ofNat 123, Char.ofNat 123, '"'], ['"', Char.ofNat 125, Char.ofNat 125])]

/-- Try the shape delimiters against the rest of a node-declaration line. -/
def tryNodePatterns (w : List Char) (r : List Char) :
    List (NodeType × List Char × List Char) → Option (String × String × NodeType)
  | [] => none
  | (t, o, c) :: rest =>
    match eatQuoted o c r with
    | some content => some (String.mk w, String.mk content, t)
    | none => tryNodePatterns w r rest

/-- The node-declaration loop: `^(\w+)\s*OPEN"([^"]+)"CLOSE` for each shape
pattern in order; returns (id, raw text, shape). -/
def matchNodeDecl (l : List Char) : Option (String × String × NodeType) :=
  match eatWord l with
  | none => none
  | some (w, r) => tryNodePatterns w (eatSpaces r) nodePatternList

/-- The arrow token `-(?:-|\.)*>`. -/
def eatArrow (l : List Char) : Option (List Char) :=
  match l with
  | '-' :: r =>
    match r.dropWhile (fun c => c == '-' || c == '.') with
    | '>' :: rest => some rest
    | _ => none
  | _ => none

/-- `self.edge_pattern`:
`^(\w+)\s*(-(?:-|\.)*>)\s*(?:\|([^|]+)\|)?\s*(\w+)(?:\s+(.*))?`; returns
(from id, to id, raw label group, style group).  When the optional label
group opens (a `|` is present) but cannot be completed, the regex as a
whole fails, because the following `\w+` cannot match `|`. -/
def matchEdgeDecl (l : List Char) :
    Option (String × String × Option String × Option String) :=
  match eatWord l with
  | none => none
  | some (fromW, r0) =>
    match eatArrow (eatSpaces r0) with
    | none => none
    | some r1 =>
      let r2 := eatSpaces r1
      let labStep : Option (Option (List Char) × List Char) :=
        match r2 with
        | '|' :: rest =>
          let content := rest.takeWhile (fun c => !(c == '|'))
          if content.isEmpty then none
          else
            match rest.drop content.length with
            | '|' :: r3 => some (some content, r3)
            | _ => none
        | _ => some (none, r2)
      match labStep with
      | none => none
      | some (labOpt, r4) =>
        match eatWord (eatSpaces r4) with
        | none => none
        | some (toW, r5) =>
          let style : Option String :=
            match r5 with
            | c :: _ => if isPySpace c then some (String.mk (eatSpaces r5)) else none
            | [] => none
          some (String.mk fromW, String.mk toW, labOpt.map String.mk, style)

/-- `self.subgraph_pattern`: `^subgraph\s+(\w+)(?:\s*\[([^\]]+)\])?`;
returns (id, optional bracketed title).  The optional title group fails
harmlessly (the match succeeds without it). -/
def matchSubgraph (l : List Char) : Option (String × Option String) :=
  match eatLit "subgraph".toList l with
  | none => none
  | some r =>
    match eatSpacesPlus r with
    | none => none
    | some r1 =>
      match eatWord r1 with
      | none => none
      | some (w, r2) =>
        match eatSpaces r2 with
        | '[' :: rest =>
          let content := rest.takeWhile (fun c => !(c == ']'))
          if content.isEmpty then some (String.mk w, none)
          else
            match rest.drop content.length with
            | ']' :: _ => some (String.mk w, some (String.mk content))
            | _ => some (String.mk w, none)
        | _ => some (String.mk w, none)

/-- `self.end_pattern`: `^end\s*$`. -/
def matchEnd (l : List Char) : Bool :=
  leadMatch "end".toList l && (l.drop 3).all isPySpace

/-- `self.class_def_pattern`: `^classDef\s+(\w+)\s+(.+)$`; the final
`\s+(.+)$` yields the remainder after the whitespace run, or a single space
when the remainder is all whitespace of length at least two (regex
backtracking gives one space back to `(.+)`). -/
def matchClassDef (l : List Char) : Option (String × String) :=
  match eatLit "classDef".toList l with
  | none => none
  | some r =>
    match eatSpacesPlus r with
    | none => none
    | some r1 =>
      match eatWord r1 with
      | none => none
      | some (w, r2) =>
        let sp := r2.takeWhile isPySpace
        let r3 := r2.dropWhile isPySpace
        if sp.isEmpty then none
        else if !r3.isEmpty then some (String.mk w, String.mk r3)
        else if 2 ≤ sp.length then some (String.mk w, " ")
        else none

/-- `self.class_pattern`: `^class\s+(\w+)\s+(\w+)$`. -/
def matchClassAssign (l : List Char) : Option (String × String) :=
  match eatLit "class".toList l with
  | none => none
  | some r =>
    match eatSpacesPlus r with
    | none => none
    | some r1 =>
      match eatWord r1 with
      | none => none
      | some (w1, r2) =>
        match eatSpacesPlus r2 with
        | none => none
        | some r3 =>
          match eatWord r3 with
          | none => none
          | some (w2, r4) =>
            if r4.isEmpty then some (String.mk w1, String.mk w2) else none

/-- What the body of the `parse` loop does with one (already stripped)
line, as a closed classification. -/
inductive LineAction where
  | skip
  | openSubgraph (id : String) (title : String)
  | closeSubgraph
  | defineClass (name style : String)
  | assignClass (nodeId className : String)
  | declareNode (id raw : String) (shape : NodeType)
  | declareEdge (from_id to_id : String) (label style : Option String)
deriving DecidableEq

/-- Classify a raw line exactly as the cascade of checks in
`MermaidParser.parse` does: strip; skip blank and `%%` lines; then try
subgraph, end, classDef, class, the node patterns, and the edge pattern in
that order; anything else is skipped. -/
def classifyLine (rawLine : String) : LineAction :=
  let l := (pyStrip rawLine).toList
  if l.isEmpty || leadMatch "%%".toList l then .skip
  else
    match matchSubgraph l with
    | some (sgId, titleOpt) => .openSubgraph sgId (titleOpt.getD sgId)
    | none =>
      if matchEnd l then .closeSubgraph
      else
        match matchClassDef l with
        | some (name, style) => .defineClass name style
        | none =>
          match matchClassAssign l with
          | some (nodeId, className) => .assignClass nodeId className
          | none =>
            match matchNodeDecl l with
            | some (nodeId, raw, shape) => .declareNode nodeId raw shape
            | none =>
              match matchEdgeDecl l with
              | some (fromId, toId, labOpt, styleOpt) =>
                .declareEdge fromId toId (labOpt.map pyStrip) styleOpt
              | none => .skip

/-- The mutable state of the `parse` loop. -/
structure ParseState where
  nodes : List (String × Node)
  edges : List Edge
  subgraphs : List (String × Subgraph)
  styles : List (String × String)
  node_classes : List (String × List String)
  current_subgraph : Option String
deriving DecidableEq

/-- The initial state of the `parse` loop. -/
def initState : ParseState :=
  { nodes := [], edges := [], subgraphs := [], styles := []
    node_classes := [], current_subgraph := none }

/-- Apply one classified line to the parser state, as the corresponding
branch of the `parse` loop does. -/
def applyAction (st : ParseState) : LineAction → ParseState
  | .skip => st
  | .openSubgraph sgId title =>
    { st with
      subgraphs := dictInsert st.subgraphs sgId
        { id := sgId, title := title, parent := st.current_subgraph
          style_classes := [] }
      current_subgraph := some sgId }
  | .closeSubgraph => { st with current_subgraph := none }
  | .defineClass name style => { st with styles := dictInsert st.styles name style }
  | .assignClass nodeId className =>
    let old := (dictLookup st.node_classes nodeId).getD []
    { st with node_classes := dictInsert st.node_classes nodeId (old ++ [className]) }
  | .declareNode nodeId raw shape =>
    let node : Node :=
      { id := nodeId, raw_text := raw, node_type := shape
        style_classes := (dictLookup st.node_classes nodeId).getD []
        subgraph := st.current_subgraph }
    { st with nodes := dictInsert st.nodes nodeId node }
  | .declareEdge fromId toId labOpt styleOpt =>
    let e : Edge := { from_id := fromId, to_id := toId, label := labOpt, style := styleOpt }
    { st with edges := st.edges ++ [e] }

/-- One iteration of the `parse` loop. -/
def processLine (st : ParseState) (rawLine : String) : ParseState :=
  applyAction st (classifyLine rawLine)

/-- Python `text.split('\n')` on the character list (empty pieces kept). -/
def splitLines : List Char → List (List Char)
  | [] => [[]]
  | c :: rest =>
    let r := splitLines rest
    if c == '\n' then [] :: r
    else (c :: r.headD []) :: r.tail

/-- Fold of the `parse` loop over a list of lines. -/
def parseLines (lines : List String) : ParseState :=
  lines.foldl processLine initState

/-- `MermaidParser.parse` / the `parse_mermaid` wrapper: split the text on
newlines, run the loop, and return the resulting Graph IR. -/
def parse_mermaid (text : String) : Graph :=
  let final := parseLines ((splitLines text.toList).map String.mk)
  { nodes := final.nodes, edges := final.edges
    subgraphs := final.subgraphs, styles := final.styles }

/-! ## Helper lemmas about the transformer -/

/-- The special-command pass never touches the `label` field. -/
theorem asc_label (ivr : IVRNode) (raw : String) :
    (add_special_commands ivr raw).label = ivr.label := by
  unfold add_special_commands
  dsimp only
  repeat' split
  all_goals rfl

/-- The special-command pass never touches the `goto` field. -/
theorem asc_goto (ivr : IVRNode) (raw : String) :
    (add_special_commands ivr raw).goto = ivr.goto := by
  unfold add_special_commands
  dsimp only
  repeat' split
  all_goals rfl

/-- The special-command pass never touches the `playPrompt` field. -/
theorem asc_playPrompt (ivr : IVRNode) (raw : String) :
    (add_special_commands ivr raw).playPrompt = ivr.playPrompt := by
  unfold add_special_commands
  dsimp only
  repeat' split
  all_goals rfl

/-- The special-command pass never touches the `getDigits` field. -/
theorem asc_getDigits (ivr : IVRNode) (raw : String) :
    (add_special_commands ivr raw).getDigits = ivr.getDigits := by
  unfold add_special_commands
  dsimp only
  repeat' split
  all_goals rfl

/-- The special-command pass never touches the `branch` field. -/
theorem asc_branch (ivr : IVRNode) (raw : String) :
    (add_special_commands ivr raw).branch = ivr.branch := by
  unfold add_special_commands
  dsimp only
  repeat' split
  all_goals rfl

/-- Every transformed node is labelled with the humanized node id. -/
theorem tn_label (n : Node) (es : List Edge) (ss : List (String × String)) :
    (transform_node n es ss).label = toTitleCase n.id := by
  unfold transform_node
  rw [asc_label]
  rcases n with ⟨nid, raw, nt, sc, sg⟩
  cases nt <;> rfl

/-- Appending the standard problems node preserves a nonempty head. -/
theorem appendProblems_cons (a : IVRNode) (l : List IVRNode) :
    ∃ l2, appendProblems (a :: l) = a :: l2 := by
  unfold appendProblems
  split
  · exact ⟨l, rfl⟩
  · exact ⟨l ++ [problemsNode], rfl⟩

/-- Appending the standard goodbye node preserves a nonempty head. -/
theorem appendGoodbye_cons (a : IVRNode) (l : List IVRNode) :
    ∃ l2, appendGoodbye (a :: l) = a :: l2 := by
  unfold appendGoodbye
  split
  · exact ⟨l, rfl⟩
  · exact ⟨l ++ [goodbyeNode], rfl⟩

/-! ## Claim C1 -/

/-- Singleton graph whose node id starts with `start` but whose raw display
text does not. -/
def cexStartGraph : Graph :=
  { nodes := [("start",
      { id := "start", raw_text := "Hello", node_type := .normal, style_classes := [] })]
    edges := [], subgraphs := [], styles := [] }

/-- C1 counterexample: the graph `cexStartGraph` contains a node whose id
begins with `start` (case-insensitively), yet `transform` still prepends the
fixed start node as the first element of the output — the claim's second
half is false, because the source tests `raw_text`, not the id. -/
theorem C1_counterexample :
    (cexStartGraph.nodes.any
      (fun p => leadMatch "start".toList (lowerStr p.2.id).toList)) = true ∧
    (transform cexStartGraph).head? = some startNode := by
  constructor
  · decide
  · decide

/-- C1 amended: the start-node guard of `transform` tests the node's raw
display text, not its id.  If no node's raw text begins with `start`
(case-insensitive), the output starts with the fixed start node; if some
node's raw text does, no start node is prepended (the output is exactly the
per-node results followed by the standard appends). -/
theorem C1_amended (g : Graph) :
    (hasStartText g = false → (transform g).head? = some startNode) ∧
    (hasStartText g = true →
      transform g = appendGoodbye (appendProblems
        (g.nodes.map (fun p => transform_node p.2 g.edges g.styles)))) := by
  constructor
  · intro h
    unfold transform baseNodes
    rw [h]
    simp only [Bool.false_eq_true, if_false, List.singleton_append]
    obtain ⟨l2, h2⟩ := appendProblems_cons startNode
      (g.nodes.map (fun p => transform_node p.2 g.edges g.styles))
    rw [h2]
    obtain ⟨l3, h3⟩ := appendGoodbye_cons startNode l2
    rw [h3]
    rfl
  · intro h
    unfold transform baseNodes
    rw [h]
    simp

/-- Concrete instantiations of the two halves of `C1_amended`: the empty
graph has no start text, a one-node graph with raw text `Start here`
does. -/
def gEmptyW : Graph := { nodes := [], edges := [], subgraphs := [], styles := [] }

/-- One-node graph whose raw text begins with `Start`. -/
def gStartTextW : Graph :=
  { nodes := [("a",
      { id := "a", raw_text := "Start here", node_type := .normal, style_classes := [] })]
    edges := [], subgraphs := [], styles := [] }

/-- Witness for `C1_amended` at concrete inputs, discharging both
hypotheses by evaluation. -/
theorem C1_amended_witness :
    (transform gEmptyW).head? = some startNode ∧
    transform gStartTextW = appendGoodbye (appendProblems
      (gStartTextW.nodes.map
        (fun p => transform_node p.2 gStartTextW.edges gStartTextW.styles))) :=
  ⟨(C1_amended gEmptyW).1 (by decide), (C1_amended gStartTextW).2 (by decide)⟩

/-! ## Claim C4 -/

/-- C4: whenever the raw text contains `transfer` (case-insensitively), the
transformed node carries the transfer variable assignment, the external
transfer-module include reference, and the `XferCall` subroutine directive —
the transfer write happens last and overwrites any result-code `gosub`. -/
theorem C4_transfer (n : Node) (es : List Edge) (ss : List (String × String))
    (h : hasInfix "transfer".toList (lowerStr n.raw_text).toList = true) :
    (transform_node n es ss).setvar = some ("transfer_ringback", "callflow:2223") ∧
    (transform_node n es ss).includeRef = some "../../util/xfer.js" ∧
    (transform_node n es ss).gosub = some (.sub "XferCall") := by
  unfold transform_node add_special_commands
  dsimp only
  simp only [h, if_true]
  trivial

/-- An action node whose text contains both a result-code keyword
(`accept`) and `transfer`. -/
def transferNodeW : Node :=
  { id := "xfer", raw_text := "Accept then Transfer to dispatcher"
    node_type := .round, style_classes := [] }

/-- Witness for `C4_transfer` at a node whose text contains both `accept`
and `transfer`. -/
theorem C4_transfer_witness :
    (transform_node transferNodeW [] []).setvar = some ("transfer_ringback", "callflow:2223") ∧
    (transform_node transferNodeW [] []).includeRef = some "../../util/xfer.js" ∧
    (transform_node transferNodeW [] []).gosub = some (.sub "XferCall") :=
  C4_transfer transferNodeW [] [] (by decide)

/-! ## Claim C6 -/

/-- On every non-decision node, the `goto` of the transformed node is
exactly the single-outgoing-edge continuation computed by
`_handle_action_node`. -/
theorem tn_goto_action (n : Node) (es : List Edge) (ss : List (String × String))
    (h : n.node_type ≠ .rhombus) :
    (transform_node n es ss).goto =
      (match es.filter (fun e => e.from_id == n.id) with
       | [e] => some (toTitleCase e.to_id)
       | _ => none) := by
  unfold transform_node
  rw [asc_goto]
  rcases n with ⟨nid, raw, nt, sc, sg⟩
  cases nt
  case rhombus => exact absurd rfl h
  all_goals rfl

/-- C6: a non-decision node with exactly one outgoing edge gets exactly one
unconditional continuation, the humanized destination of that edge; with
zero or several outgoing edges no continuation directive is attached. -/
theorem C6_continuation (n : Node) (es : List Edge) (ss : List (String × String))
    (h : n.node_type ≠ .rhombus) :
    ((es.filter (fun e => e.from_id == n.id)).length = 1 →
      (transform_node n es ss).goto =
        ((es.filter (fun e => e.from_id == n.id)).head?).map
          (fun e => toTitleCase e.to_id)) ∧
    ((es.filter (fun e => e.from_id == n.id)).length ≠ 1 →
      (transform_node n es ss).goto = none) := by
  have hg := tn_goto_action n es ss h
  constructor
  · intro hlen
    rcases hfe : es.filter (fun e => e.from_id == n.id) with _ | ⟨e, rest⟩
    · rw [hfe] at hlen
      simp at hlen
    · rcases rest with _ | ⟨e2, t⟩
      · rw [hg, hfe]
        rfl
      · rw [hfe] at hlen
        simp at hlen
  · intro hlen
    rcases hfe : es.filter (fun e => e.from_id == n.id) with _ | ⟨e, rest⟩
    · rw [hg, hfe]
    · rcases rest with _ | ⟨e2, t⟩
      · rw [hfe] at hlen
        simp at hlen
      · rw [hg, hfe]

/-- An action node with one outgoing edge, and another with two, for the
witness of `C6_continuation`. -/
def actionNodeW : Node :=
  { id := "greeting", raw_text := "Welcome", node_type := .normal, style_classes := [] }

/-- Edge list giving `greeting` exactly one outgoing edge. -/
def oneEdgeW : List Edge :=
  [{ from_id := "greeting", to_id := "main_menu" }, { from_id := "other", to_id := "x" }]

/-- Witness for `C6_continuation`: for the one-edge case the goto is the
humanized destination; adding a second outgoing edge removes it. -/
theorem C6_continuation_witness :
    (transform_node actionNodeW oneEdgeW []).goto =
      ((oneEdgeW.filter (fun e => e.from_id == actionNodeW.id)).head?).map
        (fun e => toTitleCase e.to_id) ∧
    (transform_node actionNodeW (oneEdgeW ++ [{ from_id := "greeting", to_id := "y" }]) []).goto = none :=
  ⟨(C6_continuation actionNodeW oneEdgeW [] (by decide)).1 (by decide),
   (C6_continuation actionNodeW (oneEdgeW ++ [{ from_id := "greeting", to_id := "y" }]) []
      (by decide)).2 (by decide)⟩

/-! ## Claim C5 -/

/-- Prompt resolution as the spec words it: an exact full-string match in
the table wins; otherwise the first table entry (in the table's defined
order) whose key is a case-insensitive substring of the text; otherwise
none.  Second definition written from the spec for comparison with
`find_audio_prompt`. -/
def promptResolverSpec (text : String) : Option String :=
  match AUDIO_PROMPTS.find? (fun p => p.1 == text) with
  | some e => some e.2
  | none =>
    (AUDIO_PROMPTS.find?
      (fun p => hasInfix (lowerStr p.1).toList (lowerStr text).toList)).map
      (fun p => p.2)

/-- The exact-match scan agrees with a `find?` over the table. -/
theorem findExactPrompt_eq (text : String) :
    ∀ l : List (String × String),
      findExactPrompt l text = (l.find? (fun p => p.1 == text)).map (fun p => p.2)
  | [] => rfl
  | (k, v) :: rest => by
    cases h : k == text <;>
      simp [findExactPrompt, h, List.find?_cons, findExactPrompt_eq text rest]

/-- The substring scan agrees with a `find?` over the table. -/
theorem findSubPrompt_eq (tl : String) :
    ∀ l : List (String × String),
      findSubPrompt l tl =
        (l.find? (fun p => hasInfix (lowerStr p.1).toList tl.toList)).map (fun p => p.2)
  | [] => rfl
  | (k, v) :: rest => by
    cases h : hasInfix (lowerStr k).toList tl.toList <;>
      simp only [String.toList] at h <;>
      simp [findSubPrompt, String.toList, h, List.find?_cons, findSubPrompt_eq tl rest]

/-- On every non-decision node, the `playPrompt` of the transformed node is
the resolver's answer or the synthesized text-to-speech prompt. -/
theorem tn_playPrompt_action (n : Node) (es : List Edge) (ss : List (String × String))
    (h : n.node_type ≠ .rhombus) :
    (transform_node n es ss).playPrompt =
      some (match find_audio_prompt n.raw_text with
            | some p => [p]
            | none => ["tts:" ++ n.raw_text]) := by
  unfold transform_node
  rw [asc_playPrompt]
  rcases n with ⟨nid, raw, nt, sc, sg⟩
  cases nt
  case rhombus => exact absurd rfl h
  all_goals rfl

/-- C5: the prompt resolver implements exact-match-first, then the first
case-insensitive substring entry in table order, else none; when it returns
none the transformer attaches the synthesized `tts:` prompt carrying the raw
text verbatim; and raw text exactly `Goodbye message` resolves to
`callflow:1029`. -/
theorem C5_prompt_resolution (text : String) :
    find_audio_prompt text = promptResolverSpec text ∧
    (find_audio_prompt text = none →
      ∀ (n : Node) (es : List Edge) (ss : List (String × String)),
        n.node_type ≠ .rhombus → n.raw_text = text →
        (transform_node n es ss).playPrompt = some ["tts:" ++ text]) ∧
    find_audio_prompt "Goodbye message" = some "callflow:1029" := by
  refine ⟨?_, ?_, by decide⟩
  · unfold find_audio_prompt promptResolverSpec
    rw [findExactPrompt_eq, findSubPrompt_eq]
    cases hfind : List.find? (fun p => p.1 == text) AUDIO_PROMPTS <;> rfl
  · intro hnone n es ss hnt hraw
    rw [tn_playPrompt_action n es ss hnt, hraw, hnone]

/-- A raw text matching no prompt-table key for the `C5_prompt_resolution`
witness. -/
def ttsNodeW : Node :=
  { id := "hello", raw_text := "Hello there", node_type := .round, style_classes := [] }

/-- Witness for `C5_prompt_resolution`: the inner implication instantiated
at a text that misses the table, so the tts fallback is attached. -/
theorem C5_prompt_resolution_witness :
    (transform_node ttsNodeW [] []).playPrompt = some ["tts:" ++ "Hello there"] :=
  (C5_prompt_resolution "Hello there").2.1 (by decide) ttsNodeW [] [] (by decide) rfl

/-! ## Claim C2 -/

/-- Branch-map construction as the spec words it, one labelled edge at a
time in encounter order: a leading-digit label maps the digit to the
humanized target, an `invalid`/`no input` label maps both `error` and
`none`, any other label is used verbatim; edges without a (nonempty) label
contribute nothing.  Second definition written from the spec for comparison
with `_handle_decision_node`. -/
def branchStepSpec (bm : List (String × String)) (e : Edge) : List (String × String) :=
  match e.label with
  | none => bm
  | some lab =>
    if lab == "" then bm
    else
      match digitLabelMatch lab with
      | some d => dictInsert bm d (toTitleCase e.to_id)
      | none =>
        if isInvalidLabel lab then
          dictInsert (dictInsert bm "error" (toTitleCase e.to_id))
            "none" (toTitleCase e.to_id)
        else dictInsert bm lab (toTitleCase e.to_id)

/-- Valid-choice collection as the spec words it: the digits of the
leading-digit labels, in edge-encounter order. -/
def digitStepSpec (ds : List String) (e : Edge) : List String :=
  match e.label with
  | none => ds
  | some lab =>
    if lab == "" then ds
    else
      match digitLabelMatch lab with
      | some d => ds ++ [d]
      | none => ds

/-- The branch map of a decision node, per the spec. -/
def decisionBranchSpec (outs : List Edge) : List (String × String) :=
  outs.foldl branchStepSpec []

/-- The ordered digit choices of a decision node, per the spec. -/
def decisionDigitsSpec (outs : List Edge) : List String :=
  outs.foldl digitStepSpec []

/-- One step of the source's paired fold equals the pair of the two
spec-side steps. -/
theorem decisionStep_eq (acc : List (String × String) × List String) (e : Edge) :
    decisionStep acc e = (branchStepSpec acc.1 e, digitStepSpec acc.2 e) := by
  unfold decisionStep branchStepSpec digitStepSpec
  rcases e with ⟨f, t, lab, sty⟩
  rcases lab with _ | lab
  · rfl
  · dsimp only
    cases hemp : lab == ""
    · simp only [Bool.false_eq_true, if_false]
      cases hd : digitLabelMatch lab
      · cases hinv : isInvalidLabel lab <;> simp
      · simp
    · simp

/-- The source's single fold over the outgoing edges computes the two
spec-side folds componentwise. -/
theorem decisionFold_eq (outs : List Edge) :
    ∀ (bm : List (String × String)) (ds : List String),
      outs.foldl decisionStep (bm, ds) =
        (outs.foldl branchStepSpec bm, outs.foldl digitStepSpec ds) := by
  induction outs with
  | nil => intro bm ds; rfl
  | cons e rest ih =>
    intro bm ds
    rw [List.foldl_cons, List.foldl_cons, List.foldl_cons, decisionStep_eq]
    exact ih _ _

/-- C2: every decision (rhombus) node gets digit-collection parameters
`numDigits = 1`, `maxTries = 3`, `maxTime = 7`, error and no-input prompts
both `callflow:1009`, `validChoices` the collected digits joined with `|`,
and the branch map built from the labelled outgoing edges in encounter
order by the three label rules of the spec. -/
theorem C2_decision_node (n : Node) (es : List Edge) (ss : List (String × String))
    (h : n.node_type = .rhombus) :
    (transform_node n es ss).getDigits = some
      { numDigits := 1, maxTries := 3, maxTime := 7
        validChoices :=
          if (decisionDigitsSpec (es.filter (fun e => e.from_id == n.id))).isEmpty
          then ""
          else String.mk (joinSep ['|']
            ((decisionDigitsSpec (es.filter (fun e => e.from_id == n.id))).map
              String.toList))
        errorPrompt := "callflow:1009"
        nonePrompt := "callflow:1009" } ∧
    (transform_node n es ss).branch = some
      (decisionBranchSpec (es.filter (fun e => e.from_id == n.id))) := by
  unfold transform_node
  rw [asc_getDigits, asc_branch]
  rcases n with ⟨nid, raw, nt, sc, sg⟩
  subst h
  dsimp only
  unfold handle_decision_node
  dsimp only
  rw [decisionFold_eq]
  exact ⟨rfl, rfl⟩

/-- The spec's scenario decision node: `input` with a `1 - accept` edge and
an `invalid input` edge. -/
def decisionNodeW : Node :=
  { id := "input", raw_text := "input", node_type := .rhombus, style_classes := [] }

/-- The scenario's outgoing edges of the decision node. -/
def decisionEdgesW : List Edge :=
  [{ from_id := "input", to_id := "accepted", label := some "1 - accept" },
   { from_id := "input", to_id := "problems", label := some "invalid input" }]

/-- Witness for `C2_decision_node` at the spec's scenario inputs. -/
theorem C2_decision_node_witness :
    (transform_node decisionNodeW decisionEdgesW []).getDigits = some
      { numDigits := 1, maxTries := 3, maxTime := 7
        validChoices :=
          if (decisionDigitsSpec (decisionEdgesW.filter
              (fun e => e.from_id == decisionNodeW.id))).isEmpty
          then ""
          else String.mk (joinSep ['|']
            ((decisionDigitsSpec (decisionEdgesW.filter
              (fun e => e.from_id == decisionNodeW.id))).map String.toList))
        errorPrompt := "callflow:1009"
        nonePrompt := "callflow:1009" } ∧
    (transform_node decisionNodeW decisionEdgesW []).branch = some
      (decisionBranchSpec (decisionEdgesW.filter
        (fun e => e.from_id == decisionNodeW.id))) :=
  C2_decision_node decisionNodeW decisionEdgesW [] rfl

/-! ## Claim C8 -/

/-- C8: a non-blank, non-comment line that matches none of the
subgraph-open, subgraph-close, class-definition, class-assignment,
node-declaration, or edge-declaration patterns is silently skipped: the
parser state — nodes, edges, subgraphs, styles, pending class assignments
and the open subgraph — is left entirely unchanged, so parsing never fails
on unrecognized syntax (the embedding of `parse` is total by
construction). -/
theorem C8_silent_skip (st : ParseState) (line : String)
    (h1 : (pyStrip line).toList.isEmpty = false)
    (h2 : leadMatch "%%".toList (pyStrip line).toList = false)
    (h3 : matchSubgraph (pyStrip line).toList = none)
    (h4 : matchEnd (pyStrip line).toList = false)
    (h5 : matchClassDef (pyStrip line).toList = none)
    (h6 : matchClassAssign (pyStrip line).toList = none)
    (h7 : matchNodeDecl (pyStrip line).toList = none)
    (h8 : matchEdgeDecl (pyStrip line).toList = none) :
    processLine st line = st := by
  have h1x : (pyStrip line).toList ≠ [] := by
    intro hc
    rw [hc] at h1
    simp at h1
  unfold processLine classifyLine
  dsimp only
  rw [h3, h5, h6, h7, h8]
  simp only [String.toList] at h1x h2 h4
  simp [h1x, h2, h4, applyAction]

/-- Witness for `C8_silent_skip`: a decorative line matching no pattern
leaves the initial parser state unchanged. -/
theorem C8_silent_skip_witness :
    processLine initState "@=@ decorative junk @=@" = initState :=
  C8_silent_skip initState "@=@ decorative junk @=@"
    (by decide) (by decide) (by decide) (by decide)
    (by decide) (by decide) (by decide) (by decide)

/-! ## Claim C7 -/

/-- Number of nodes in a sequence carrying a given label. -/
def countLabel (l : List IVRNode) (s : String) : Nat :=
  (l.filter (fun n => n.label == s)).length

/-- Label search distributes over append. -/
theorem hasLabel_append (l1 l2 : List IVRNode) (s : String) :
    hasLabel (l1 ++ l2) s = (hasLabel l1 s || hasLabel l2 s) := by
  simp [hasLabel]

/-- When a `Problems` label is already present nothing is appended. -/
theorem appendProblems_of_has {l : List IVRNode}
    (h : hasLabel l "Problems" = true) : appendProblems l = l := by
  unfold appendProblems
  rw [h]
  simp

/-- When a `Goodbye` label is already present nothing is appended. -/
theorem appendGoodbye_of_has {l : List IVRNode}
    (h : hasLabel l "Goodbye" = true) : appendGoodbye l = l := by
  unfold appendGoodbye
  rw [h]
  simp

/-- The problems append preserves any label already present. -/
theorem hasLabel_appendProblems_mono {l : List IVRNode} {s : String}
    (h : hasLabel l s = true) : hasLabel (appendProblems l) s = true := by
  unfold appendProblems
  split
  · exact h
  · rw [hasLabel_append, h]
    rfl

/-- Label count over a one-element append. -/
theorem countLabel_snoc (l : List IVRNode) (x : IVRNode) (s : String) :
    countLabel (l ++ [x]) s = countLabel l s + (if x.label == s then 1 else 0) := by
  simp only [countLabel, List.filter_append, List.length_append]
  congr 1
  cases h : x.label == s <;> simp [List.filter, h]

/-- Any-test over a mapped list evaluates the predicate after the map. -/
theorem anyMapEq {a b : Type} (l : List a) (f : a → b) (p : b → Bool) :
    (l.map f).any p = l.any (fun x => p (f x)) := by
  induction l with
  | nil => rfl
  | cons x rest ih => simp [ih]

/-- A graph node whose id humanizes to `s` forces label `s` into the
pre-append node sequence. -/
theorem base_hasLabel_of_node (g : Graph) (s : String)
    (h : g.nodes.any (fun p => toTitleCase p.2.id == s) = true) :
    hasLabel (baseNodes g) s = true := by
  unfold baseNodes hasLabel
  rw [List.any_append]
  have hbody : (g.nodes.map (fun p => transform_node p.2 g.edges g.styles)).any
      (fun n => n.label == s) = true := by
    rw [anyMapEq]
    simp only [tn_label]
    exact h
  rw [hbody]
  simp

/-- C7: when no produced node is labelled `Problems` the fixed
error-handling node is appended, when none is labelled `Goodbye` the fixed
goodbye node is appended; when a graph node's id humanizes to `Problems`
(resp. `Goodbye`) no second node with that label is appended; and the
output sequence is never empty. -/
theorem C7_standard_appends (g : Graph) :
    (hasLabel (baseNodes g) "Problems" = false →
      transform g = appendGoodbye (baseNodes g ++ [problemsNode])) ∧
    (hasLabel (baseNodes g) "Goodbye" = false →
      transform g = appendProblems (baseNodes g) ++ [goodbyeNode]) ∧
    (g.nodes.any (fun p => toTitleCase p.2.id == "Problems") = true →
      countLabel (transform g) "Problems" = countLabel (baseNodes g) "Problems") ∧
    (g.nodes.any (fun p => toTitleCase p.2.id == "Goodbye") = true →
      countLabel (transform g) "Goodbye" = countLabel (baseNodes g) "Goodbye") ∧
    transform g ≠ [] := by
  refine ⟨?_, ?_, ?_, ?_, ?_⟩
  · intro h
    unfold transform appendProblems
    rw [h]
    simp
  · intro h
    have h2 : hasLabel (appendProblems (baseNodes g)) "Goodbye" = false := by
      unfold appendProblems
      split
      · exact h
      · rw [hasLabel_append, h]
        decide
    unfold transform appendGoodbye
    rw [h2]
    simp
  · intro h
    have hb := base_hasLabel_of_node g "Problems" h
    unfold transform
    rw [appendProblems_of_has hb]
    unfold appendGoodbye
    split
    · rfl
    · rw [countLabel_snoc]
      have hlab : (goodbyeNode.label == "Problems") = false := by decide
      rw [hlab]
      simp
  · intro h
    have hb := base_hasLabel_of_node g "Goodbye" h
    have hb2 := hasLabel_appendProblems_mono hb
    unfold transform
    rw [appendGoodbye_of_has hb2]
    unfold appendProblems
    split
    · rfl
    · rw [countLabel_snoc]
      have hlab : (problemsNode.label == "Goodbye") = false := by decide
      rw [hlab]
      simp
  · unfold transform appendGoodbye
    split
    case isTrue hl =>
      intro hc
      rw [hc] at hl
      exact absurd hl (by decide)
    case isFalse hl =>
      simp

/-- Graph declaring its own `problems` and `goodbye` nodes, for the witness
of `C7_standard_appends`. -/
def gPGW : Graph :=
  { nodes :=
      [("problems",
        { id := "problems", raw_text := "Error handler", node_type := .normal
          style_classes := [] }),
       ("goodbye",
        { id := "goodbye", raw_text := "Bye", node_type := .normal
          style_classes := [] })]
    edges := [], subgraphs := [], styles := [] }

/-- Witness for `C7_standard_appends`, discharging all four hypotheses at
concrete graphs: the empty graph gets both standard appends; a graph
declaring `problems`/`goodbye` ids gets no second node with those labels. -/
theorem C7_standard_appends_witness :
    transform gEmptyW = appendGoodbye (baseNodes gEmptyW ++ [problemsNode]) ∧
    transform gEmptyW = appendProblems (baseNodes gEmptyW) ++ [goodbyeNode] ∧
    countLabel (transform gPGW) "Problems" = countLabel (baseNodes gPGW) "Problems" ∧
    countLabel (transform gPGW) "Goodbye" = countLabel (baseNodes gPGW) "Goodbye" :=
  ⟨(C7_standard_appends gEmptyW).1 (by decide),
   (C7_standard_appends gEmptyW).2.1 (by decide),
   (C7_standard_appends gPGW).2.2.1 (by decide),
   (C7_standard_appends gPGW).2.2.2.1 (by decide)⟩

/-! ## Claim C3 -/

/-- Two distinct node ids (`a_b` and `a__b`) that humanize to the same
label `A B`. -/
def cexDupGraph : Graph :=
  { nodes :=
      [("a_b", { id := "a_b", raw_text := "x", node_type := .normal, style_classes := [] }),
       ("a__b", { id := "a__b", raw_text := "y", node_type := .normal, style_classes := [] })]
    edges := [], subgraphs := [], styles := [] }

/-- C3 counterexample: on `cexDupGraph` the output of `transform` carries
the label `A B` twice (ids `a_b` and `a__b` both humanize to it), so labels
are not unique within the output sequence for every Graph IR. -/
theorem C3_counterexample :
    ¬ (((transform cexDupGraph).map (fun n => n.label)).Nodup) := by
  decide

/-- A label absent from the any-scan is absent from the mapped labels. -/
theorem not_mem_label_of_hasLabel_false {l : List IVRNode} {s : String}
    (h : hasLabel l s = false) : s ∉ l.map (fun n => n.label) := by
  intro hmem
  obtain ⟨n, hn, hlab⟩ := List.mem_map.mp hmem
  have htrue : hasLabel l s = true := by
    unfold hasLabel
    rw [List.any_eq_true]
    exact ⟨n, hn, beq_iff_eq.mpr hlab⟩
  rw [h] at htrue
  exact Bool.false_ne_true htrue

/-- The problems append preserves label distinctness. -/
theorem nodup_labels_appendProblems {l : List IVRNode}
    (h : (l.map (fun n => n.label)).Nodup) :
    ((appendProblems l).map (fun n => n.label)).Nodup := by
  unfold appendProblems
  split
  case isTrue => exact h
  case isFalse hl =>
    have hfalse : hasLabel l "Problems" = false := by
      cases hh : hasLabel l "Problems"
      · rfl
      · exact absurd hh hl
    rw [List.map_append]
    refine List.Nodup.append h (List.nodup_singleton _) ?_
    intro a ha hb
    rcases List.mem_singleton.mp hb with rfl
    exact not_mem_label_of_hasLabel_false hfalse ha

/-- The goodbye append preserves label distinctness. -/
theorem nodup_labels_appendGoodbye {l : List IVRNode}
    (h : (l.map (fun n => n.label)).Nodup) :
    ((appendGoodbye l).map (fun n => n.label)).Nodup := by
  unfold appendGoodbye
  split
  case isTrue => exact h
  case isFalse hl =>
    have hfalse : hasLabel l "Goodbye" = false := by
      cases hh : hasLabel l "Goodbye"
      · rfl
      · exact absurd hh hl
    rw [List.map_append]
    refine List.Nodup.append h (List.nodup_singleton _) ?_
    intro a ha hb
    rcases List.mem_singleton.mp hb with rfl
    exact not_mem_label_of_hasLabel_false hfalse ha

/-- The labels of the pre-append sequence: an optional `Start` followed by
the humanized node ids in declaration order. -/
theorem baseNodes_labels (g : Graph) :
    (baseNodes g).map (fun n => n.label) =
      (if hasStartText g then ([] : List String) else ["Start"]) ++
        g.nodes.map (fun p => toTitleCase p.2.id) := by
  unfold baseNodes
  rw [List.map_append, List.map_map]
  have hcomp : ((fun n : IVRNode => n.label) ∘
      fun p : String × Node => transform_node p.2 g.edges g.styles) =
      fun p : String × Node => toTitleCase p.2.id :=
    funext fun p => tn_label p.2 g.edges g.styles
  rw [hcomp]
  congr 1
  split <;> rfl

/-- Membership in the final output decomposes into the pre-append sequence
and the two standard appends. -/
theorem mem_transform_cases (g : Graph) (x : IVRNode) (hx : x ∈ transform g) :
    x ∈ baseNodes g ∨ x = problemsNode ∨ x = goodbyeNode := by
  unfold transform appendGoodbye at hx
  split at hx
  · unfold appendProblems at hx
    split at hx
    · exact Or.inl hx
    · rcases List.mem_append.mp hx with h | h
      · exact Or.inl h
      · exact Or.inr (Or.inl (List.mem_singleton.mp h))
  · rcases List.mem_append.mp hx with h | h
    · unfold appendProblems at h
      split at h
      · exact Or.inl h
      · rcases List.mem_append.mp h with h2 | h2
        · exact Or.inl h2
        · exact Or.inr (Or.inl (List.mem_singleton.mp h2))
    · exact Or.inr (Or.inr (List.mem_singleton.mp h))

/-- C3 amended: the claim holds for Graph IRs whose humanized node ids are
pairwise distinct, non-empty, and (when the fixed start node is prepended,
that is when no raw text begins with `start`) different from `Start`: then
every output node has a non-empty label and labels are unique.  Unrestricted
Graph IRs violate it, see the counterexample. -/
theorem C3_amended (g : Graph)
    (hnd : (g.nodes.map (fun p => toTitleCase p.2.id)).Nodup)
    (hne : ∀ p ∈ g.nodes, toTitleCase p.2.id ≠ "")
    (hstart : hasStartText g = false →
      "Start" ∉ g.nodes.map (fun p => toTitleCase p.2.id)) :
    (∀ n ∈ transform g, n.label ≠ "") ∧
    ((transform g).map (fun n => n.label)).Nodup := by
  constructor
  · intro n hn
    rcases mem_transform_cases g n hn with hb | rfl | rfl
    · unfold baseNodes at hb
      rcases List.mem_append.mp hb with hp | hm
      · have hns : n = startNode := by
          revert hp
          split
          · intro hp
            exact absurd hp (List.not_mem_nil n)
          · intro hp
            exact List.mem_singleton.mp hp
        rw [hns]
        decide
      · obtain ⟨p, hpmem, hpeq⟩ := List.mem_map.mp hm
        rw [← hpeq, tn_label]
        exact hne p hpmem
    · decide
    · decide
  · have hbnd : ((baseNodes g).map (fun n => n.label)).Nodup := by
      rw [baseNodes_labels]
      cases hst : hasStartText g
      · simp only [hst, Bool.false_eq_true, if_false, List.singleton_append]
        exact List.nodup_cons.mpr ⟨hstart hst, hnd⟩
      · simpa only [hst, if_true, List.nil_append] using hnd
    exact nodup_labels_appendGoodbye (nodup_labels_appendProblems hbnd)

/-- Graph with distinct, non-empty humanized ids avoiding `Start`, for the
witness of `C3_amended`. -/
def gDistinctW : Graph :=
  { nodes :=
      [("greeting", { id := "greeting", raw_text := "Welcome", node_type := .normal
                      style_classes := [] }),
       ("main_menu", { id := "main_menu", raw_text := "Menu", node_type := .rhombus
                       style_classes := [] })]
    edges := [{ from_id := "greeting", to_id := "main_menu" }]
    subgraphs := [], styles := [] }

/-- Witness for `C3_amended` at a concrete graph, discharging the three
hypotheses by evaluation. -/
theorem C3_amended_witness :
    (∀ n ∈ transform gDistinctW, n.label ≠ "") ∧
    ((transform gDistinctW).map (fun n => n.label)).Nodup :=
  C3_amended gDistinctW (by decide) (by decide) (by decide)

/-! ## Claim C9 -/

/-- C9: the graph-to-IVR transformation is deterministic — the transformer
holds only tables fixed at construction and `transform` writes no state, so
two invocations on the same Graph IR yield deep-equal output sequences. -/
theorem C9_deterministic (g : Graph) : (runTwice g).1 = (runTwice g).2 := rfl

/-! ## Claim C10 -/

/-- Overwriting an existing key in place makes it found with the new value. -/
theorem lookup_overwrite_self {β : Type} (k : String) (v : β) :
    ∀ m : List (String × β), m.any (fun p => p.1 == k) = true →
      dictLookup (m.map (fun p => if p.1 == k then (k, v) else p)) k = some v := by
  intro m
  induction m with
  | nil => intro h; simp at h
  | cons a rest ih =>
    intro h
    cases ha : a.1 == k
    · have hrest : rest.any (fun p => p.1 == k) = true := by
        rw [List.any_cons, ha] at h
        simpa using h
      simp only [List.map_cons, ha, Bool.false_eq_true, if_false]
      rcases a with ⟨a1, a2⟩
      simp only [dictLookup, ha, Bool.false_eq_true, if_false] at *
      exact ih hrest
    · simp only [List.map_cons, ha, if_true]
      simp [dictLookup]

/-- Appending a fresh key makes it found with the new value. -/
theorem lookup_appendNew_self {β : Type} (k : String) (v : β) :
    ∀ m : List (String × β), m.any (fun p => p.1 == k) = false →
      dictLookup (m ++ [(k, v)]) k = some v := by
  intro m
  induction m with
  | nil => simp [dictLookup]
  | cons a rest ih =>
    intro h
    rw [List.any_cons] at h
    rcases Bool.or_eq_false_iff.mp h with ⟨ha, hrest⟩
    rcases a with ⟨a1, a2⟩
    simp only [List.cons_append, dictLookup, ha, Bool.false_eq_true, if_false]
    exact ih hrest

/-- Overwriting key `k` in place does not affect lookups of `j ≠ k`. -/
theorem lookup_overwrite_ne {β : Type} {j k : String} (v : β) (hjk : j ≠ k) :
    ∀ m : List (String × β),
      dictLookup (m.map (fun p => if p.1 == k then (k, v) else p)) j = dictLookup m j := by
  have hkj : (k == j) = false := by
    cases hb : k == j
    · rfl
    · exact absurd (beq_iff_eq.mp hb) (fun he => hjk he.symm)
  intro m
  induction m with
  | nil => rfl
  | cons a rest ih =>
    rcases a with ⟨a1, a2⟩
    rw [List.map_cons]
    cases ha : a1 == k
    · rw [if_neg (by decide : ¬(false = true))]
      unfold dictLookup
      rw [ih]
    · have ha1 : a1 = k := beq_iff_eq.mp ha
      subst ha1
      rw [if_pos rfl]
      unfold dictLookup
      have hknj : ¬((a1 == j) = true) := by simp [hkj]
      rw [if_neg hknj, if_neg hknj]
      exact ih

/-- Appending key `k` does not affect lookups of `j ≠ k`. -/
theorem lookup_appendNew_ne {β : Type} {j k : String} (v : β) (hjk : j ≠ k) :
    ∀ m : List (String × β), dictLookup (m ++ [(k, v)]) j = dictLookup m j := by
  have hkj : (k == j) = false := by
    cases hb : k == j
    · rfl
    · exact absurd (beq_iff_eq.mp hb) (fun he => hjk he.symm)
  intro m
  induction m with
  | nil => simp [dictLookup, hkj]
  | cons a rest ih =>
    rcases a with ⟨a1, a2⟩
    simp only [List.cons_append, dictLookup]
    cases haj : a1 == j
    · simpa [haj] using ih
    · simp [haj]

/-- Lookup of a freshly inserted key. -/
theorem dictLookup_insert_self {β : Type} (m : List (String × β)) (k : String) (v : β) :
    dictLookup (dictInsert m k v) k = some v := by
  unfold dictInsert
  split
  case isTrue h => exact lookup_overwrite_self k v m h
  case isFalse h =>
    have hfalse : m.any (fun p => p.1 == k) = false := by
      cases hh : m.any (fun p => p.1 == k)
      · rfl
      · exact absurd hh h
    exact lookup_appendNew_self k v m hfalse

/-- Insertion of key `k` does not affect lookups of `j ≠ k`. -/
theorem dictLookup_insert_ne {β : Type} (m : List (String × β)) {j k : String}
    (v : β) (hjk : j ≠ k) :
    dictLookup (dictInsert m k v) j = dictLookup m j := by
  unfold dictInsert
  split
  · exact lookup_overwrite_ne v hjk m
  · exact lookup_appendNew_ne v hjk m

/-- The node id a line action assigns a class to, if it is a
class-assignment. -/
def actionAssignId : LineAction → Option String
  | .assignClass nid _ => some nid
  | _ => none

/-- The node id a line action declares, if it is a node declaration. -/
def actionDeclId : LineAction → Option String
  | .declareNode nid _ _ => some nid
  | _ => none

/-- The node id a raw line assigns a class to, if the parser loop treats it
as a class assignment. -/
def lineAssignId (l : String) : Option String := actionAssignId (classifyLine l)

/-- The node id a raw line declares, if the parser loop treats it as a node
declaration. -/
def lineDeclId (l : String) : Option String := actionDeclId (classifyLine l)

/-- Only a class assignment for `id` itself can change the pending class
list of `id`. -/
theorem applyAction_node_classes (st : ParseState) (a : LineAction) (id : String)
    (h : actionAssignId a ≠ some id) :
    dictLookup (applyAction st a).node_classes id = dictLookup st.node_classes id := by
  cases a with
  | assignClass nid cn =>
    have hne : id ≠ nid := by
      intro he
      exact h (by rw [actionAssignId, he])
    exact dictLookup_insert_ne _ _ hne
  | skip => rfl
  | openSubgraph s t => rfl
  | closeSubgraph => rfl
  | defineClass n s => rfl
  | declareNode n r sh => rfl
  | declareEdge f t l s => rfl

/-- Only a node declaration for `id` itself can change the stored node of
`id`. -/
theorem applyAction_nodes (st : ParseState) (a : LineAction) (id : String)
    (h : actionDeclId a ≠ some id) :
    dictLookup (applyAction st a).nodes id = dictLookup st.nodes id := by
  cases a with
  | declareNode nid raw sh =>
    have hne : id ≠ nid := by
      intro he
      exact h (by rw [actionDeclId, he])
    exact dictLookup_insert_ne _ _ hne
  | skip => rfl
  | openSubgraph s t => rfl
  | closeSubgraph => rfl
  | defineClass n s => rfl
  | assignClass n c => rfl
  | declareEdge f t l s => rfl

/-- Folding lines none of which class-assign `id` preserves the pending
class list of `id`. -/
theorem foldl_node_classes (id : String) :
    ∀ (lines : List String) (st : ParseState),
      (∀ l ∈ lines, lineAssignId l ≠ some id) →
      dictLookup (lines.foldl processLine st).node_classes id =
        dictLookup st.node_classes id := by
  intro lines
  induction lines with
  | nil => intro st _; rfl
  | cons l rest ih =>
    intro st h
    rw [List.foldl_cons]
    rw [ih (processLine st l) (fun x hx => h x (List.mem_cons_of_mem l hx))]
    exact applyAction_node_classes st (classifyLine l) id (h l (List.mem_cons_self l rest))

/-- Folding lines none of which declare `id` preserves the stored node of
`id`. -/
theorem foldl_nodes (id : String) :
    ∀ (lines : List String) (st : ParseState),
      (∀ l ∈ lines, lineDeclId l ≠ some id) →
      dictLookup (lines.foldl processLine st).nodes id = dictLookup st.nodes id := by
  intro lines
  induction lines with
  | nil => intro st _; rfl
  | cons l rest ih =>
    intro st h
    rw [List.foldl_cons]
    rw [ih (processLine st l) (fun x hx => h x (List.mem_cons_of_mem l hx))]
    exact applyAction_nodes st (classifyLine l) id (h l (List.mem_cons_self l rest))

/-- C10: class assignments are order-sensitive.  If line `d` is the only
node declaration for `id`, no line before `d` class-assigns `id`, and no
line after `d` re-declares `id`, then the parsed node for `id` exists and
its `style_classes` list is empty — class-assignment lines after the
declaration (allowed anywhere in `post`) never attach to the node. -/
theorem C10_class_order (pre post : List String) (d : String) (id : String)
    (hd : lineDeclId d = some id)
    (hpre : ∀ l ∈ pre, lineAssignId l ≠ some id)
    (hpost : ∀ l ∈ post, lineDeclId l ≠ some id) :
    ∃ n : Node, dictLookup (parseLines (pre ++ d :: post)).nodes id = some n ∧
      n.style_classes = [] := by
  unfold parseLines
  rw [List.foldl_append, List.foldl_cons]
  have hnc : dictLookup (pre.foldl processLine initState).node_classes id = none := by
    rw [foldl_node_classes id pre initState hpre]
    rfl
  rcases hact : classifyLine d with _ | _ | _ | _ | _ | ⟨nid, raw, sh⟩ | _
  case declareNode =>
    have hid : nid = id := by
      unfold lineDeclId at hd
      rw [hact] at hd
      exact Option.some.inj (by exact hd)
    subst hid
    rw [foldl_nodes nid post _ hpost]
    unfold processLine
    rw [hact]
    simp only [applyAction]
    refine ⟨{ id := nid, raw_text := raw, node_type := sh
              style_classes :=
                (dictLookup (pre.foldl processLine initState).node_classes nid).getD []
              subgraph := (pre.foldl processLine initState).current_subgraph },
            dictLookup_insert_self _ _ _, ?_⟩
    dsimp only
    rw [hnc]
    rfl
  all_goals simp [lineDeclId, hact, actionDeclId] at hd

/-- Concrete declaration line and a class assignment placed after it, for
the witness of `C10_class_order`. -/
def declLineW : String := "a[\x22Hello\x22]"

/-- The class-assignment line following the declaration in the witness. -/
def assignLineW : String := "class a green"

/-- Witness for `C10_class_order`: declaring `a` and then assigning it a
class leaves the parsed node's `style_classes` empty. -/
theorem C10_class_order_witness :
    ∃ n : Node, dictLookup (parseLines ([] ++ declLineW :: [assignLineW])).nodes "a" = some n ∧
      n.style_classes = [] :=
  C10_class_order [] [assignLineW] declLineW "a" (by decide) (by decide) (by decide)

end PM
